import Mathlib

/-!
Verification of the `AgentCoreMemoryManager` component
(`src/utils/agentcore_memory_manager.py`).

The Python class coordinates two external stores:
an event log (AWS AgentCore memory) and a metadata table (DynamoDB).
We embed the component shallowly: the two stores become explicit state
(`World`), transient per-call success/failure of the external services
becomes an `Oracle` of boolean flags, try/except blocks become total
functions folding the `Except` results of the primitive calls into the
documented fallback values, and `datetime.now()` becomes a logical clock.
-/

/-! ## Actor-id sanitization (`_sanitize_actor_id`, lines 113-124)

The Python code applies four regex rewrites in order:
1. `re.sub(r'[^a-zA-Z0-9_-]', '_', user_id)`   — mask disallowed chars;
2. `re.sub(r'^[^a-zA-Z0-9]+', '', s)`          — trim non-alphanumerics at the start;
3. `re.sub(r'[^a-zA-Z0-9_-]+$', '', s)`        — trim disallowed chars at the end;
4. `re.sub(r'_+', '_', s)`                     — collapse runs of underscores;
and finally `return sanitized or 'user'`.
`Char.isAlphanum` is exactly the ASCII class `[a-zA-Z0-9]` of the regexes. -/

def isAllowedChar (c : Char) : Bool := c.isAlphanum || c == '_' || c == '-'

def maskDisallowed (l : List Char) : List Char :=
  l.map (fun c => if isAllowedChar c then c else '_')

def trimStart (l : List Char) : List Char :=
  l.dropWhile (fun c => !c.isAlphanum)

def trimEnd (l : List Char) : List Char :=
  (l.reverse.dropWhile (fun c => !isAllowedChar c)).reverse

def collapseRuns : List Char → List Char
  | [] => []
  | [c] => [c]
  | c1 :: c2 :: rest =>
    if c1 == '_' && c2 == '_' then collapseRuns (c2 :: rest)
    else c1 :: collapseRuns (c2 :: rest)

def sanitizeChars (l : List Char) : List Char :=
  collapseRuns (trimEnd (trimStart (maskDisallowed l)))

def sanitize_actor_id (user_id : String) : String :=
  let s := sanitizeChars user_id.toList
  if s.isEmpty then "user" else s.asString

/-- Full match against the spec's regex `[A-Za-z0-9][A-Za-z0-9_-]*[A-Za-z0-9_-]`:
one alphanumeric, then at least one further allowed character (so length ≥ 2). -/
def matchesSpecRegex : List Char → Bool
  | [] => false
  | [_] => false
  | c :: rest => c.isAlphanum && rest.all isAllowedChar

/-- The pattern the code actually guarantees: one leading alphanumeric followed
by any (possibly empty) run of allowed characters. -/
def matchesHeadPattern : List Char → Bool
  | [] => false
  | c :: rest => c.isAlphanum && rest.all isAllowedChar

/-- Two adjacent occurrences of a separator (`_` or `-`) somewhere in the list. -/
def isSepChar (c : Char) : Bool := c == '_' || c == '-'

def hasConsecutiveSep : List Char → Bool
  | c1 :: c2 :: rest => (isSepChar c1 && isSepChar c2) || hasConsecutiveSep (c2 :: rest)
  | _ => false

/-- No two adjacent underscores anywhere in the list. -/
def noDoubleUnderscore : List Char → Bool
  | c1 :: c2 :: rest => !(c1 == '_' && c2 == '_') && noDoubleUnderscore (c2 :: rest)
  | _ => true

/-! ## The two external stores and the manager state

`StoredEvent` models one AgentCore event as created by
`memory_client.create_event(..., messages=[(text, role)], event_timestamp=ts)`:
every event written by this component carries exactly one conversational
payload entry `{role, content.text}` plus `eventTimestamp` and `eventId`.
`SessionRow` models one DynamoDB item of the `customer-support-sessions`
table (partition key `user_id`, sort key `session_id`).

`World` is the combined state of the two external stores plus a logical
clock standing for `datetime.now()` (each timestamp draw is a fresh, strictly
larger tick) and the uuid source used by `create_session`.

`Manager` is the manager's own state after `__init__`: `initialized` is the
flag set by `_initialize_agentcore`, and `hasTable` says whether
`self.session_table` is usable (`_ensure_session_table_exists` succeeded).

`Oracle` fixes, for one call sequence, which primitive store calls succeed
and which raise; the public methods never surface these errors. -/

structure StoredEvent where
  actorId : String
  sessionId : String
  role : String
  text : String
  ts : Nat
  eid : Nat
deriving Repr, DecidableEq

structure SessionRow where
  user_id : String
  session_id : String
  last_message : String
  last_response : String
  last_updated : Nat
  message_count : Nat
deriving Repr, DecidableEq

structure World where
  events : List StoredEvent
  rows : List SessionRow
  clock : Nat
  nextEid : Nat
  nextUuid : Nat
deriving Repr, DecidableEq

structure Manager where
  initialized : Bool
  hasTable : Bool
deriving Repr, DecidableEq

structure Oracle where
  createEventOk : Bool
  listEventsOk : Bool
  deleteEventOk : Nat → Bool
  getItemOk : Bool
  putItemOk : Bool
  queryOk : Bool
  deleteItemOk : Bool

def oracleOk : Oracle := ⟨true, true, fun _ => true, true, true, true, true⟩

def oracleDown : Oracle := ⟨false, false, fun _ => false, false, false, false, false⟩

/-- Python string slicing `s[:n]`, counted in characters. -/
def strTake (s : String) (n : Nat) : String := (s.toList.take n).asString

/-- Python slicing `l[-n:]` for a non-negative `n`: for `n = 0` this is
`l[-0:] = l[0:]`, the whole list, not the empty list. -/
def pySliceLast {α : Type} (n : Nat) (l : List α) : List α :=
  if n = 0 then l else l.drop (l.length - n)

/-- The most recent `n` entries of `l` (what the spec calls "the most recent
`max_messages` turns"). -/
def lastN {α : Type} (n : Nat) (l : List α) : List α := (l.reverse.take n).reverse

/-- Python membership test `needle in haystack` on strings. -/
def listStartsWith : List Char → List Char → Bool
  | [], _ => true
  | _ :: _, [] => false
  | n :: ns, h :: hs => n == h && listStartsWith ns hs

def listContainsSub (needle : List Char) : List Char → Bool
  | [] => needle.isEmpty
  | h :: hs => listStartsWith needle (h :: hs) || listContainsSub needle hs

def containsStr (haystack needle : String) : Bool :=
  listContainsSub needle.toList haystack.toList

/-- Python `s.lower()` (ASCII suffices for the fixed vocabulary involved). -/
def strLower (s : String) : String := (s.toList.map Char.toLower).asString

/-! ## Primitive store calls

Each primitive either performs its effect or raises (`Except.error`),
as directed by the oracle. -/

def createEvent (o : Oracle) (W : World) (actor session text role : String) (ts : Nat) :
    Except Unit World :=
  if o.createEventOk then
    Except.ok { W with
      events := W.events ++ [⟨actor, session, role, text, ts, W.nextEid⟩],
      nextEid := W.nextEid + 1 }
  else Except.error ()

/-- The `list_events(..., max_results=100)` call: the events of the
actor/session pair, capped at the fixed page size of 100. -/
def listEvents (o : Oracle) (W : World) (actor session : String) :
    Except Unit (List StoredEvent) :=
  if o.listEventsOk then
    Except.ok ((W.events.filter
      (fun e => e.actorId == actor && e.sessionId == session)).take 100)
  else Except.error ()

def rowKeyMatches (user session : String) (r : SessionRow) : Bool :=
  r.user_id == user && r.session_id == session

/-- DynamoDB `get_item` on the metadata table. -/
def getRow (W : World) (user session : String) : Option SessionRow :=
  W.rows.find? (rowKeyMatches user session)

/-- DynamoDB `put_item`: replaces the item with the same key, appends otherwise.
`rows` keeps insertion order. -/
def putRow (W : World) (r : SessionRow) : World :=
  { W with rows :=
      (W.rows.filter (fun x => !(rowKeyMatches r.user_id r.session_id x))) ++ [r] }

/-- DynamoDB `delete_item` on the metadata table. -/
def deleteRow (W : World) (user session : String) : World :=
  { W with rows := W.rows.filter (fun r => !(rowKeyMatches user session r)) }

/-! ## Sorting

`get_session_messages` sorts parsed turns by timestamp
(`sorted(messages, key=...)`, a stable ascending sort); `get_user_sessions`
queries DynamoDB with `ScanIndexForward=False`, which yields items in
descending sort-key (`session_id`) order. DynamoDB compares string keys
lexicographically by code unit. -/

structure Msg where
  role : String
  content : String
  timestamp : Nat
deriving Repr, DecidableEq

def insertByTs (m : Msg) : List Msg → List Msg
  | [] => [m]
  | x :: xs => if x.timestamp ≤ m.timestamp then x :: insertByTs m xs else m :: x :: xs

/-- Stable ascending sort by timestamp (a message is inserted after every
already-placed message whose key is ≤ its own, as Python's stable `sorted`). -/
def sortedByTs (l : List Msg) : List Msg := l.foldl (fun acc m => insertByTs m acc) []

/-- Lexicographic comparison of strings as lists of characters. -/
def charListLt : List Char → List Char → Bool
  | [], [] => false
  | [], _ :: _ => true
  | _ :: _, [] => false
  | a :: as, b :: bs => decide (a < b) || (a == b && charListLt as bs)

def sessBefore (a b : SessionRow) : Bool := charListLt a.session_id.toList b.session_id.toList

def insertRowDesc (r : SessionRow) : List SessionRow → List SessionRow
  | [] => [r]
  | x :: xs => if sessBefore r x then x :: insertRowDesc r xs else r :: x :: xs

/-- Descending order by sort key, as a DynamoDB query with
`ScanIndexForward=False` returns its items. -/
def sortRowsDesc (l : List SessionRow) : List SessionRow :=
  l.foldl (fun acc r => insertRowDesc r acc) []

/-! ## Public operations of the Memory Manager -/

/-- Lines 292-325 (`_update_session_metadata`): reads the current count
(defaulting so that the new count is 1 when the read fails or finds nothing),
writes the row with 100-character previews; both failure modes are caught. -/
def update_session_metadata (mgr : Manager) (o : Oracle) (W : World)
    (user session message response : String) (ts : Nat) : World :=
  if !mgr.hasTable then W
  else
    let message_count :=
      if o.getItemOk then
        (match getRow W user session with
         | some r => r.message_count
         | none => 0) + 1
      else 1
    if o.putItemOk then
      putRow W ⟨user, session, strTake message 100, strTake response 100, ts, message_count⟩
    else W

/-- Lines 126-164. Appends the user event at tick `t`, the assistant event at
a strictly later tick (the code sleeps 100ms between the two `datetime.now()`
draws), then updates the metadata row. Any raise is caught: effects performed
before the failure point persist, nothing is rolled back, nothing is
re-raised. -/
def store_message (mgr : Manager) (o : Oracle) (W : World)
    (user session message response : String) : World :=
  if !mgr.initialized then W
  else
    let actor := sanitize_actor_id user
    let t1 := W.clock
    let W0 := { W with clock := W.clock + 3 }
    match createEvent o W0 actor session message "USER" t1 with
    | Except.error _ => W0
    | Except.ok W1 =>
      match createEvent o W1 actor session response "ASSISTANT" (t1 + 1) with
      | Except.error _ => W1
      | Except.ok W2 => update_session_metadata mgr o W2 user session message response (t1 + 2)

/-- Lines 166-208. Parses each listed event's single conversational payload:
role "USER" maps to "user", anything else to "assistant"; events whose
extracted text is empty (`if content:`) are skipped; the result is sorted by
timestamp. Returns `[]` when not initialized or on any raise. -/
def parseEvent (e : StoredEvent) : Option Msg :=
  if e.text == "" then none
  else some ⟨if e.role == "USER" then "user" else "assistant", e.text, e.ts⟩

def get_session_messages (mgr : Manager) (o : Oracle) (W : World)
    (user session : String) : List Msg :=
  if !mgr.initialized then []
  else
    match listEvents o W (sanitize_actor_id user) session with
    | Except.error _ => []
    | Except.ok evs => sortedByTs (evs.filterMap parseEvent)

/-- Lines 210-221. `messages[-max_messages:]` rendered as "Role: body" lines,
bodies truncated to 200 characters. Reads only; returns no new `World`. -/
def renderMsg (m : Msg) : String :=
  (if m.role == "user" then "Human" else "Assistant") ++ ": " ++ strTake m.content 200

def get_conversation_context (mgr : Manager) (o : Oracle) (W : World)
    (user session _query : String) (max_messages : Nat) : String :=
  let messages := get_session_messages mgr o W user session
  let recent := if messages.isEmpty then [] else pySliceLast max_messages messages
  String.intercalate "\n" (recent.map renderMsg)

/-- Lines 327-350 (`get_user_sessions`): query by partition key with
`ScanIndexForward=False` and `Limit=limit`; empty on unavailability/failure. -/
def get_user_sessions (mgr : Manager) (o : Oracle) (W : World)
    (user : String) (limit : Nat) : List SessionRow :=
  if !mgr.hasTable then []
  else if !o.queryOk then []
  else (sortRowsDesc (W.rows.filter (fun r => r.user_id == user))).take limit

/-- Lines 223-257 (`get_user_preferences`): the if/elif keyword chain applied
to one lowered user message. -/
structure Preferences where
  communication_style : String
  preferred_topics : List String
  common_issues : List String
  response_length : String
deriving Repr, DecidableEq

def basePreferences : Preferences := ⟨"professional", [], [], "medium"⟩

def classifyStep (p : Preferences) (contentLower : String) : Preferences :=
  if containsStr contentLower "warranty" then
    { p with common_issues := p.common_issues ++ ["warranty"] }
  else if containsStr contentLower "profile" || containsStr contentLower "account" then
    { p with common_issues := p.common_issues ++ ["account"] }
  else if containsStr contentLower "mars" || containsStr contentLower "weather" then
    { p with preferred_topics := p.preferred_topics ++ ["space_data"] }
  else p

def get_user_preferences (mgr : Manager) (o : Oracle) (W : World) (user : String) :
    Preferences :=
  let sessions := get_user_sessions mgr o W user 5
  let all_messages :=
    (sessions.map (fun s => get_session_messages mgr o W user s.session_id)).flatten
  let user_messages := all_messages.filter (fun m => m.role == "user")
  let p := (pySliceLast 20 user_messages).foldl
    (fun acc m => classifyStep acc (strLower m.content)) basePreferences
  { p with common_issues := p.common_issues.dedup,
           preferred_topics := p.preferred_topics.dedup }

/-- Lines 259-290 (`generate_follow_up_questions`): canned history-based
suggestions followed by canned query-based suggestions, first three kept. -/
def historyFollowUps (prefs : Preferences) : List String :=
  (if prefs.common_issues.contains "warranty" then
    ["Would you like me to check the warranty status of any other products?"] else []) ++
  (if prefs.common_issues.contains "account" then
    ["Do you need help updating your account information?"] else [])

def queryFollowUps (current_query : String) : List String :=
  let cl := strLower current_query
  if containsStr cl "warranty" then
    ["Would you like me to explain the warranty coverage details?",
     "Do you need help with a warranty claim process?"]
  else if containsStr cl "profile" || containsStr cl "customer" then
    ["Would you like to update any of your profile information?",
     "Do you need help with your communication preferences?"]
  else if containsStr cl "mars" then
    ["Would you like to know about Mars atmospheric conditions?",
     "Are you interested in historical Mars weather data?"]
  else []

def generate_follow_up_questions (mgr : Manager) (o : Oracle) (W : World)
    (user current_query : String) : List String :=
  let prefs := get_user_preferences mgr o W user
  ((historyFollowUps prefs) ++ (queryFollowUps current_query)).take 3

/-- Lines 352-376 (`create_session`): a fresh identifier is always produced
and returned; the initial metadata row (placeholder last_message,
empty last_response, count 0) is written only if the table handle exists and
the write succeeds. `uuid.uuid4()` is modelled by the fresh-token counter. -/
def create_session (mgr : Manager) (o : Oracle) (W : World) (user : String) :
    String × World :=
  let sid := "session-" ++ toString W.nextUuid
  let W0 := { W with nextUuid := W.nextUuid + 1 }
  if mgr.hasTable then
    let ts := W0.clock
    let W1 := { W0 with clock := W0.clock + 1 }
    if o.putItemOk then
      (sid, putRow W1 ⟨user, sid, "New session started", "", ts, 0⟩)
    else (sid, W1)
  else (sid, W0)

/-- Lines 378-421 (`delete_session`). When initialization failed the
`memory_client` handle is unusable, so the very first call raises and the
outer handler returns false with nothing deleted. Otherwise the listed page
of events is deleted one by one (individually best-effort, keyed by event
id), the metadata row is deleted, and the result is `deleted_count > 0`. -/
def delete_session (mgr : Manager) (o : Oracle) (W : World)
    (user session : String) : Bool × World :=
  if !mgr.initialized then (false, W)
  else
    match listEvents o W (sanitize_actor_id user) session with
    | Except.error _ => (false, W)
    | Except.ok evs =>
      let deleted := evs.filter (fun e => o.deleteEventOk e.eid)
      let keep : StoredEvent → Bool := fun e => !(deleted.any (fun d => d.eid == e.eid))
      let W1 := { W with events := W.events.filter keep }
      let W2 :=
        if mgr.hasTable then
          (if o.deleteItemOk then deleteRow W1 user session else W1)
        else W1
      (decide (0 < deleted.length), W2)

/-- Lines 423-425. -/
def is_available (mgr : Manager) : Bool := mgr.initialized

/-! ## Concrete scenarios used as witnesses and counterexamples -/

def mgrFull : Manager := ⟨true, true⟩

def mgrDegraded : Manager := ⟨false, false⟩

def emptyWorld : World := ⟨[], [], 0, 0, 0⟩

/-- One stored user turn "hi" for user "u", session "s". -/
def oneMsgWorld : World := ⟨[⟨"u", "s", "USER", "hi", 0, 0⟩], [], 1, 1, 0⟩

/-- A user whose history holds one message about a warranty and one about
Mars weather, in one session with a metadata row. -/
def prefWorld : World :=
  ⟨[⟨"u", "s1", "USER", "check my warranty status", 0, 0⟩,
    ⟨"u", "s1", "USER", "mars weather", 1, 1⟩],
   [⟨"u", "s1", "check my warranty status", "ok", 1, 2⟩], 2, 2, 0⟩

/-- A user whose history holds a warranty message and an account message, so
both history-based follow-ups fire. -/
def followWorld : World :=
  ⟨[⟨"u", "s1", "USER", "warranty please", 0, 0⟩,
    ⟨"u", "s1", "USER", "my account", 1, 1⟩],
   [⟨"u", "s1", "warranty please", "ok", 1, 2⟩], 2, 2, 0⟩

/-- Metadata rows in insertion order: the row inserted (and updated) first has
the lexicographically larger session id. -/
def olderRow : SessionRow := ⟨"u", "session-b", "m1", "r1", 0, 1⟩

def newerRow : SessionRow := ⟨"u", "session-a", "m2", "r2", 5, 1⟩

def twoRowsWorld : World := ⟨[], [olderRow, newerRow], 10, 0, 0⟩

/-- A session holding 101 events — one more than the fixed listing page. -/
def manyEvents : List StoredEvent :=
  (List.range 101).map (fun i => ⟨"u", "s", "USER", "m", i, i⟩)

def bigWorld : World := ⟨manyEvents, [], 200, 200, 0⟩

/-! ## Theorems -/

example :
    (get_session_messages mgrFull oracleOk
      (store_message mgrFull oracleOk emptyWorld "u" "s" "hello" "world") "u" "s").map
      (fun m => (m.role, m.content)) = [("user", "hello"), ("assistant", "world")] := by decide

example : get_conversation_context mgrFull oracleOk oneMsgWorld "u" "s" "q" 0 = "Human: hi" := by
  decide

example : get_user_sessions mgrFull oracleOk twoRowsWorld "u" 10 = [olderRow, newerRow] := by decide

example : (delete_session mgrFull oracleOk oneMsgWorld "u" "s").1 = true := by decide

example : (delete_session mgrFull oracleOk emptyWorld "u" "s").1 = false := by decide

example : (get_user_preferences mgrFull oracleOk prefWorld "u").common_issues = ["warranty"] := by
  decide

example : (get_user_preferences mgrFull oracleOk prefWorld "u").preferred_topics =
    ["space_data"] := by decide

example : generate_follow_up_questions mgrFull oracleOk followWorld "u" "warranty" =
    ["Would you like me to check the warranty status of any other products?",
     "Do you need help updating your account information?",
     "Would you like me to explain the warranty coverage details?"] := by decide

example : (create_session mgrFull oracleOk emptyWorld "u").1 = "session-0" := by decide

example : (delete_session mgrFull oracleOk bigWorld "u" "s").1 = true := by decide

example : get_session_messages mgrFull oracleOk
    (delete_session mgrFull oracleOk bigWorld "u" "s").2 "u" "s" ≠ [] := by decide

theorem maskDisallowed_all (l : List Char) :
    (maskDisallowed l).all isAllowedChar = true := by
  induction l with
  | nil => rfl
  | cons c cs ih =>
    simp only [maskDisallowed, List.map_cons, List.all_cons, Bool.and_eq_true] at *
    refine ⟨?_, ih⟩
    by_cases h : isAllowedChar c = true
    · simp [h]
    · simp only [h]
      simp [isAllowedChar]

theorem all_dropWhile (p q : Char → Bool) (l : List Char) (h : l.all q = true) :
    (l.dropWhile p).all q = true := by
  induction l with
  | nil => rfl
  | cons c cs ih =>
    simp only [List.all_cons, Bool.and_eq_true] at h
    rw [List.dropWhile_cons]
    by_cases hp : p c = true
    · simp only [hp, if_true]
      exact ih h.2
    · simp only [hp]
      simp [List.all_cons, h.1, ih h.2, h.2]

theorem head_trimStart (l : List Char) (c : Char) (rest : List Char)
    (h : trimStart l = c :: rest) : c.isAlphanum = true := by
  induction l with
  | nil => exact absurd h (by simp [trimStart])
  | cons a as ih =>
    unfold trimStart at h
    rw [List.dropWhile_cons] at h
    by_cases hp : (!a.isAlphanum) = true
    · rw [if_pos hp] at h
      exact ih h
    · rw [if_neg hp] at h
      injection h with h1 _
      subst h1
      simpa using hp

theorem trimEnd_of_all (l : List Char) (h : l.all isAllowedChar = true) :
    trimEnd l = l := by
  unfold trimEnd
  have hrev : l.reverse.all isAllowedChar = true := by
    rw [List.all_reverse]; exact h
  suffices hs : l.reverse.dropWhile (fun c => !isAllowedChar c) = l.reverse by
    rw [hs, List.reverse_reverse]
  cases hr : l.reverse with
  | nil => rfl
  | cons a as =>
    rw [hr] at hrev
    simp only [List.all_cons, Bool.and_eq_true] at hrev
    rw [List.dropWhile_cons]
    simp [hrev.1]

theorem collapseRuns_head? (l : List Char) :
    (collapseRuns l).head? = l.head? := by
  induction l with
  | nil => rfl
  | cons c1 tail ih =>
    cases tail with
    | nil => rfl
    | cons c2 rest =>
      rw [collapseRuns]
      by_cases h : (c1 == '_' && c2 == '_') = true
      · rw [if_pos h, ih]
        simp only [Bool.and_eq_true, beq_iff_eq] at h
        simp [h.1, h.2]
      · rw [if_neg h]
        rfl

theorem collapseRuns_all (p : Char → Bool) (l : List Char) (h : l.all p = true) :
    (collapseRuns l).all p = true := by
  induction l with
  | nil => rfl
  | cons c1 tail ih =>
    cases tail with
    | nil => exact h
    | cons c2 rest =>
      simp only [List.all_cons, Bool.and_eq_true] at h
      rw [collapseRuns]
      by_cases hb : (c1 == '_' && c2 == '_') = true
      · rw [if_pos hb]
        exact ih (by simp [List.all_cons, h.2.1, h.2.2])
      · rw [if_neg hb]
        simp only [List.all_cons, Bool.and_eq_true]
        exact ⟨h.1, ih (by simp [List.all_cons, h.2.1, h.2.2])⟩

theorem collapseRuns_noDouble (l : List Char) :
    noDoubleUnderscore (collapseRuns l) = true := by
  induction l with
  | nil => rfl
  | cons c1 tail ih =>
    cases tail with
    | nil => rfl
    | cons c2 rest =>
      rw [collapseRuns]
      by_cases hb : (c1 == '_' && c2 == '_') = true
      · rw [if_pos hb]; exact ih
      · rw [if_neg hb]
        cases hc : collapseRuns (c2 :: rest) with
        | nil =>
          exact absurd (collapseRuns_head? (c2 :: rest)) (by simp [hc])
        | cons b bs =>
          have hb2 : b = c2 := by
            have := collapseRuns_head? (c2 :: rest)
            rw [hc] at this
            simpa using this
          subst hb2
          rw [noDoubleUnderscore]
          rw [hc] at ih
          simp only [Bool.and_eq_true]
          constructor
          · cases hbe : (c1 == '_' && b == '_') with
            | false => rfl
            | true => exact absurd hbe hb
          · exact ih

theorem collapseRuns_ne_nil (c : Char) (rest : List Char) :
    collapseRuns (c :: rest) ≠ [] := by
  intro h
  have := collapseRuns_head? (c :: rest)
  rw [h] at this
  simp at this

theorem toList_asString (l : List Char) : (List.asString l).toList = l := rfl

theorem asString_cons_ne_empty (c : Char) (l : List Char) : List.asString (c :: l) ≠ "" := by
  intro h
  have h2 : c :: l = ([] : List Char) := congrArg String.data h
  exact List.cons_ne_nil c l h2

/-- C1, amended: for every input string, the sanitized actor id is non-empty
(falling back to the placeholder "user"), contains only alphanumerics, hyphens
and underscores, starts with an alphanumeric character (it matches
`[A-Za-z0-9][A-Za-z0-9_-]*`, but not necessarily the spec's two-character
minimum `[A-Za-z0-9][A-Za-z0-9_-]*[A-Za-z0-9_-]`), and contains no
consecutive underscores (consecutive hyphens, however, can survive). -/
theorem sanitize_actor_id_contract (user_id : String) :
    sanitize_actor_id user_id ≠ "" ∧
    (sanitize_actor_id user_id).toList.all isAllowedChar = true ∧
    matchesHeadPattern (sanitize_actor_id user_id).toList = true ∧
    noDoubleUnderscore (sanitize_actor_id user_id).toList = true := by
  have hall : (maskDisallowed user_id.toList).all isAllowedChar = true := maskDisallowed_all _
  have htall : (trimStart (maskDisallowed user_id.toList)).all isAllowedChar = true :=
    all_dropWhile _ _ _ hall
  have hte : trimEnd (trimStart (maskDisallowed user_id.toList)) =
      trimStart (maskDisallowed user_id.toList) := trimEnd_of_all _ htall
  unfold sanitize_actor_id sanitizeChars
  rw [hte]
  cases hts : trimStart (maskDisallowed user_id.toList) with
  | nil =>
    refine ⟨by decide, by decide, by decide, by decide⟩
  | cons a rest =>
    rw [hts] at htall
    have ha := head_trimStart _ a rest hts
    have hcall : (collapseRuns (a :: rest)).all isAllowedChar = true :=
      collapseRuns_all isAllowedChar (a :: rest) htall
    have hcnd : noDoubleUnderscore (collapseRuns (a :: rest)) = true :=
      collapseRuns_noDouble (a :: rest)
    cases hs : collapseRuns (a :: rest) with
    | nil => exact absurd hs (collapseRuns_ne_nil a rest)
    | cons b bs =>
      have hb : b = a := by
        have hh := collapseRuns_head? (a :: rest)
        rw [hs] at hh
        simpa using hh
      rw [hs] at hcall hcnd
      simp only [List.isEmpty_cons, Bool.false_eq_true, if_false, toList_asString]
      refine ⟨asString_cons_ne_empty b bs, hcall, ?_, hcnd⟩
      show (b.isAlphanum && bs.all isAllowedChar) = true
      simp only [List.all_cons, Bool.and_eq_true] at hcall
      simp [hb, ha, hcall.2]

/-- C1, counterexample to the claim as stated: on input "a" the sanitizer
returns "a", which does not match the two-character-minimum regex
`[A-Za-z0-9][A-Za-z0-9_-]*[A-Za-z0-9_-]`; and on input "a--b" it returns
"a--b", which contains two adjacent separators. -/
theorem sanitize_actor_id_claim_refuted :
    sanitize_actor_id "a" = "a" ∧
    matchesSpecRegex (sanitize_actor_id "a").toList = false ∧
    sanitize_actor_id "a--b" = "a--b" ∧
    hasConsecutiveSep (sanitize_actor_id "a--b").toList = true := by decide

example : sanitize_actor_id "john.doe@example.com" = "john_doe_example_com" := by decide
example : sanitize_actor_id "" = "user" := by decide
example : sanitize_actor_id "___" = "user" := by decide
example : sanitize_actor_id "a" = "a" := by decide
example : sanitize_actor_id "a--b" = "a--b" := by decide
example : sanitize_actor_id "@@x__y@@" = "x_y_" := by decide

theorem update_metadata_events (mgr : Manager) (o : Oracle) (W : World)
    (user session message response : String) (ts : Nat) :
    (update_session_metadata mgr o W user session message response ts).events = W.events := by
  unfold update_session_metadata
  cases h1 : mgr.hasTable with
  | false => rfl
  | true => cases h3 : o.putItemOk <;> rfl

theorem sortedByTs_pair (m1 m2 : Msg) (h : m1.timestamp ≤ m2.timestamp) :
    sortedByTs [m1, m2] = [m1, m2] := by
  simp [sortedByTs, insertByTs, h]

/-- C2: on a previously empty session of an initialized manager with working
stores, storing a non-empty (message, response) pair and reading the session
back yields exactly two turns, in order: role "user" with the original
message, then role "assistant" with the original response. -/
theorem store_then_get_two_turns (mgr : Manager) (o : Oracle) (W : World)
    (user session message response : String)
    (hinit : mgr.initialized = true)
    (hco : o.createEventOk = true) (hlo : o.listEventsOk = true)
    (hm : message ≠ "") (hr : response ≠ "")
    (hempty : W.events.filter
      (fun e => e.actorId == sanitize_actor_id user && e.sessionId == session) = []) :
    (get_session_messages mgr o
        (store_message mgr o W user session message response) user session).map
      (fun m => (m.role, m.content)) = [("user", message), ("assistant", response)] := by
  obtain ⟨mi, mt⟩ := mgr
  replace hinit : mi = true := hinit
  subst hinit
  obtain ⟨oc, ol, od, og, op, oq, odel⟩ := o
  replace hco : oc = true := hco
  replace hlo : ol = true := hlo
  subst hco
  subst hlo
  have hA : (("ASSISTANT" : String) == "USER") = false := by decide
  have hm' : (message == "") = false := beq_eq_false_iff_ne.mpr hm
  have hr' : (response == "") = false := beq_eq_false_iff_ne.mpr hr
  simp only [store_message, createEvent, get_session_messages, listEvents]
  simp only [Bool.not_true, Bool.false_eq_true, if_false, if_true, reduceIte]
  rw [update_metadata_events]
  simp only [List.filter_append, hempty, List.nil_append]
  rw [List.filter_cons, List.filter_cons]
  simp only [beq_self_eq_true, Bool.and_self, if_true, List.filter_nil]
  rw [List.take_of_length_le (by simp)]
  simp only [List.singleton_append, List.filterMap_cons, List.filterMap_nil, parseEvent,
    hm', hr', hA, beq_self_eq_true, Bool.false_eq_true, if_false, if_true, reduceIte]
  rw [sortedByTs_pair _ _ (Nat.le_succ _)]
  rfl

theorem mem_insertByTs (x m : Msg) : ∀ l, x ∈ insertByTs m l → x = m ∨ x ∈ l := by
  intro l
  induction l with
  | nil =>
    intro h
    rw [insertByTs] at h
    exact Or.inl (List.mem_singleton.mp h)
  | cons a as ih =>
    intro h
    rw [insertByTs] at h
    by_cases hc : a.timestamp ≤ m.timestamp
    · rw [if_pos hc] at h
      rcases List.mem_cons.mp h with h1 | h2
      · exact Or.inr (List.mem_cons.mpr (Or.inl h1))
      · rcases ih h2 with h3 | h4
        · exact Or.inl h3
        · exact Or.inr (List.mem_cons.mpr (Or.inr h4))
    · rw [if_neg hc] at h
      rcases List.mem_cons.mp h with h1 | h2
      · exact Or.inl h1
      · exact Or.inr h2

theorem mem_sortedByTs_aux (x : Msg) : ∀ (l acc : List Msg),
    x ∈ l.foldl (fun a m => insertByTs m a) acc → x ∈ acc ∨ x ∈ l := by
  intro l
  induction l with
  | nil => intro acc h; exact Or.inl h
  | cons m ms ih =>
    intro acc h
    rcases ih (insertByTs m acc) h with h1 | h2
    · rcases mem_insertByTs x m acc h1 with h3 | h4
      · exact Or.inr (by simp [h3])
      · exact Or.inl h4
    · exact Or.inr (List.mem_cons.mpr (Or.inr h2))

theorem mem_sortedByTs (x : Msg) (l : List Msg) (h : x ∈ sortedByTs l) : x ∈ l := by
  rcases mem_sortedByTs_aux x l [] h with h1 | h2
  · cases h1
  · exact h2

theorem length_insertByTs (m : Msg) : ∀ l, (insertByTs m l).length = l.length + 1 := by
  intro l
  induction l with
  | nil => rfl
  | cons a as ih =>
    rw [insertByTs]
    by_cases hc : a.timestamp ≤ m.timestamp
    · rw [if_pos hc]
      simp [ih]
    · rw [if_neg hc]
      simp

theorem length_sortedByTs_aux : ∀ (l acc : List Msg),
    (l.foldl (fun a m => insertByTs m a) acc).length = acc.length + l.length := by
  intro l
  induction l with
  | nil => intro acc; rfl
  | cons m ms ih =>
    intro acc
    rw [List.foldl_cons, ih, length_insertByTs]
    simp only [List.length_cons]
    omega

theorem length_sortedByTs (l : List Msg) : (sortedByTs l).length = l.length := by
  rw [sortedByTs, length_sortedByTs_aux]
  simp

/-- C10: `get_session_messages` omits every stored event whose extracted text
is empty: every returned turn has non-empty content, and storing a pair with
an empty message or an empty response into a previously empty session leaves
fewer than two retrievable turns. -/
theorem empty_content_omitted (mgr : Manager) (o : Oracle) (W Wa : World)
    (user session message response : String)
    (hinit : mgr.initialized = true)
    (hco : o.createEventOk = true) (hlo : o.listEventsOk = true)
    (hempty : W.events.filter
      (fun e => e.actorId == sanitize_actor_id user && e.sessionId == session) = [])
    (h0 : message = "" ∨ response = "") :
    (∀ m ∈ get_session_messages mgr o Wa user session, m.content ≠ "") ∧
    (get_session_messages mgr o
        (store_message mgr o W user session message response) user session).length < 2 := by
  constructor
  · intro m hm
    unfold get_session_messages at hm
    by_cases hi : (!mgr.initialized) = true
    · rw [if_pos hi] at hm
      cases hm
    · rw [if_neg hi] at hm
      cases hev : listEvents o Wa (sanitize_actor_id user) session with
      | error e =>
        rw [hev] at hm
        cases hm
      | ok evs =>
        rw [hev] at hm
        have hm2 := mem_sortedByTs m _ hm
        rcases List.mem_filterMap.mp hm2 with ⟨e, _, hpe⟩
        unfold parseEvent at hpe
        by_cases ht : (e.text == "") = true
        · rw [if_pos ht] at hpe
          cases hpe
        · rw [if_neg ht] at hpe
          injection hpe with hpe2
          subst hpe2
          exact fun hh => ht (beq_iff_eq.mpr hh)
  · obtain ⟨mi, mt⟩ := mgr
    replace hinit : mi = true := hinit
    subst hinit
    obtain ⟨oc, ol, od, og, op, oq, odel⟩ := o
    replace hco : oc = true := hco
    replace hlo : ol = true := hlo
    subst hco
    subst hlo
    simp only [store_message, createEvent, get_session_messages, listEvents]
    simp only [Bool.not_true, Bool.false_eq_true, if_false, if_true, reduceIte]
    rw [update_metadata_events]
    simp only [List.filter_append, hempty, List.nil_append]
    rw [List.filter_cons, List.filter_cons]
    simp only [beq_self_eq_true, Bool.and_self, if_true, List.filter_nil]
    rw [List.take_of_length_le (by simp), length_sortedByTs]
    rcases h0 with h0 | h0
    · subst h0
      simp only [List.singleton_append, List.filterMap_cons, List.filterMap_nil, parseEvent,
        beq_self_eq_true, if_true, reduceIte]
      cases hp : ((response == "") : Bool) with
      | true => simp [hp]
      | false => simp [hp]
    · subst h0
      simp only [List.singleton_append, List.filterMap_cons, List.filterMap_nil, parseEvent,
        beq_self_eq_true, if_true, reduceIte]
      cases hp : ((message == "") : Bool) with
      | true => simp [hp]
      | false => simp [hp]

theorem pySliceLast_eq_lastN {α : Type} (n : Nat) (l : List α) (hn : 1 ≤ n) :
    pySliceLast n l = lastN n l := by
  unfold pySliceLast lastN
  rw [if_neg (by omega : ¬ n = 0), List.reverse_take]
  simp

theorem strTake_le (s : String) (n : Nat) : (strTake s n).length ≤ n :=
  List.length_take_le n s.toList

/-- C5, amended: for every `max_messages ≥ 1` the rendered context is exactly
the newline-joined "Role: body" rendering of the most recent `max_messages`
turns, where each body is truncated to at most 200 characters; the function
returns only a string, so it writes no state. (For `max_messages = 0` the
claim fails — Python's `messages[-0:]` is the whole list, see the
counterexample.) -/
theorem conversation_context_contract (mgr : Manager) (o : Oracle) (W : World)
    (user session query : String) (n : Nat) (hn : 1 ≤ n) :
    get_conversation_context mgr o W user session query n =
      String.intercalate "\n"
        ((lastN n (get_session_messages mgr o W user session)).map renderMsg) ∧
    (∀ m : Msg, renderMsg m =
        (if m.role == "user" then "Human" else "Assistant") ++ ": " ++ strTake m.content 200 ∧
      (strTake m.content 200).length ≤ 200) := by
  constructor
  · unfold get_conversation_context
    cases hM : get_session_messages mgr o W user session with
    | nil => simp [pySliceLast, lastN]
    | cons a as =>
      simp only [List.isEmpty_cons, Bool.false_eq_true, if_false, reduceIte]
      rw [pySliceLast_eq_lastN n _ hn]
  · intro m
    exact ⟨rfl, strTake_le _ _⟩

/-- C5, witness: the contract applied at a concrete session and
`max_messages = 2`. -/
theorem conversation_context_contract_witness :
    1 ≤ 2 ∧
    (get_conversation_context mgrFull oracleOk oneMsgWorld "u" "s" "q" 2 =
      String.intercalate "\n"
        ((lastN 2 (get_session_messages mgrFull oracleOk oneMsgWorld "u" "s")).map renderMsg) ∧
    (∀ m : Msg, renderMsg m =
        (if m.role == "user" then "Human" else "Assistant") ++ ": " ++ strTake m.content 200 ∧
      (strTake m.content 200).length ≤ 200)) :=
  ⟨by decide,
   conversation_context_contract mgrFull oracleOk oneMsgWorld "u" "s" "q" 2 (by decide)⟩

/-- C5, counterexample to the claim as stated: with `max_messages = 0` on a
session holding one stored turn, the most recent 0 turns render to the empty
string, but the code returns the full transcript, because Python's
`messages[-0:]` is the whole list. -/
theorem conversation_context_claim_refuted :
    get_conversation_context mgrFull oracleOk oneMsgWorld "u" "s" "q" 0 = "Human: hi" ∧
    lastN 0 (get_session_messages mgrFull oracleOk oneMsgWorld "u" "s") = [] ∧
    ("Human: hi" : String) ≠ "" := by decide

/-- C2, witness: the round trip at concrete inputs. -/
theorem store_then_get_two_turns_witness :
    mgrFull.initialized = true ∧ ("hello" : String) ≠ "" ∧
    (get_session_messages mgrFull oracleOk
        (store_message mgrFull oracleOk emptyWorld "u" "s" "hello" "world") "u" "s").map
      (fun m => (m.role, m.content)) = [("user", "hello"), ("assistant", "world")] :=
  ⟨by decide, by decide,
   store_then_get_two_turns mgrFull oracleOk emptyWorld "u" "s" "hello" "world"
     (by decide) (by decide) (by decide) (by decide) (by decide) (by decide)⟩

/-- C10, witness: storing an empty message at concrete inputs. -/
theorem empty_content_omitted_witness :
    (("" : String) = "" ∨ ("resp" : String) = "") ∧
    ((∀ m ∈ get_session_messages mgrFull oracleOk oneMsgWorld "u" "s", m.content ≠ "") ∧
    (get_session_messages mgrFull oracleOk
        (store_message mgrFull oracleOk emptyWorld "u" "s" "" "resp") "u" "s").length < 2) :=
  ⟨Or.inl rfl,
   empty_content_omitted mgrFull oracleOk emptyWorld oneMsgWorld "u" "s" "" "resp"
     (by decide) (by decide) (by decide) (by decide) (Or.inl rfl)⟩

theorem deleteRow_events (W : World) (u s : String) : (deleteRow W u s).events = W.events := rfl

theorem events_metadata_branch (W1 : World) (mt odel : Bool) (u s : String) :
    (if mt = true then (if odel = true then deleteRow W1 u s else W1) else W1).events =
      W1.events := by
  cases mt <;> cases odel <;> rfl

/-- C3, amended: `delete_session` returns true iff at least one event of the
listed page was successfully deleted; deleting a session with zero recorded
events returns false even when the metadata-row deletion succeeds; and when
the session holds at most 100 events (the fixed listing page size) and every
individual event delete succeeds, a subsequent `get_session_messages` on the
session returns an empty sequence. (Beyond 100 events the page cap leaves
events behind, so the unamended claim fails — see the counterexample.) -/
theorem delete_session_contract (mgr : Manager) (o : Oracle) (W : World) (u s : String)
    (hinit : mgr.initialized = true) (hlist : o.listEventsOk = true) :
    ((delete_session mgr o W u s).1 = true ↔
      ∃ e ∈ (W.events.filter
          (fun e => e.actorId == sanitize_actor_id u && e.sessionId == s)).take 100,
        o.deleteEventOk e.eid = true) ∧
    (W.events.filter (fun e => e.actorId == sanitize_actor_id u && e.sessionId == s) = [] →
      (delete_session mgr o W u s).1 = false) ∧
    ((W.events.filter
        (fun e => e.actorId == sanitize_actor_id u && e.sessionId == s)).length ≤ 100 →
      (∀ e ∈ W.events.filter
          (fun e => e.actorId == sanitize_actor_id u && e.sessionId == s),
        o.deleteEventOk e.eid = true) →
      get_session_messages mgr o (delete_session mgr o W u s).2 u s = []) := by
  obtain ⟨mi, mt⟩ := mgr
  replace hinit : mi = true := hinit
  subst hinit
  obtain ⟨oc, ol, od, og, op, oq, odel⟩ := o
  replace hlist : ol = true := hlist
  subst hlist
  simp only [delete_session, listEvents, get_session_messages]
  simp only [Bool.not_true, Bool.false_eq_true, if_false, if_true, reduceIte]
  refine ⟨?_, ?_, ?_⟩
  · simp [decide_eq_true_iff, List.length_pos_iff_exists_mem, List.mem_filter]
  · intro hF
    simp [hF]
  · intro hlen hall
    rw [List.take_of_length_le hlen]
    rw [events_metadata_branch]
    have hnil : (W.events.filter (fun e =>
        !((W.events.filter
            (fun e => e.actorId == sanitize_actor_id u && e.sessionId == s)).filter
          (fun e => od e.eid)).any (fun d => d.eid == e.eid))).filter
        (fun e => e.actorId == sanitize_actor_id u && e.sessionId == s) = [] := by
      rw [List.filter_eq_nil_iff]
      intro e he hPe
      have he2 := List.mem_filter.mp he
      have heF : e ∈ W.events.filter
          (fun e => e.actorId == sanitize_actor_id u && e.sessionId == s) :=
        List.mem_filter.mpr ⟨he2.1, hPe⟩
      have heD : e ∈ (W.events.filter
          (fun e => e.actorId == sanitize_actor_id u && e.sessionId == s)).filter
          (fun e => od e.eid) :=
        List.mem_filter.mpr ⟨heF, hall e heF⟩
      have hany : ((W.events.filter
          (fun e => e.actorId == sanitize_actor_id u && e.sessionId == s)).filter
          (fun e => od e.eid)).any (fun d => d.eid == e.eid) = true :=
        List.any_eq_true.mpr ⟨e, heD, beq_self_eq_true e.eid⟩
      rw [hany] at he2
      exact absurd he2.2 (by simp)
    rw [hnil]
    rfl

/-- C3, witness: deleting a session with zero recorded events reports false. -/
theorem delete_session_contract_witness :
    (delete_session mgrFull oracleOk emptyWorld "u" "s").1 = false :=
  (delete_session_contract mgrFull oracleOk emptyWorld "u" "s"
    (by decide) (by decide)).2.1 (by decide)

/-- C3, counterexample to the claim as stated: a session holding 101 events.
Every attempted event delete succeeds and `delete_session` returns true, yet
the 101st event is beyond the 100-event listing page and survives, so
`get_session_messages` on the deleted session afterwards is not empty. -/
theorem delete_session_claim_refuted :
    (delete_session mgrFull oracleOk bigWorld "u" "s").1 = true ∧
    (∀ e ∈ bigWorld.events, oracleOk.deleteEventOk e.eid = true) ∧
    get_session_messages mgrFull oracleOk
      (delete_session mgrFull oracleOk bigWorld "u" "s").2 "u" "s" ≠ [] := by decide

theorem find?_filter_key (p : SessionRow → Bool) : ∀ (l : List SessionRow) (x : SessionRow),
    p x = true → ((l.filter (fun r => !(p r))) ++ [x]).find? p = some x := by
  intro l x hx
  induction l with
  | nil =>
    simp only [List.filter_nil, List.nil_append]
    exact List.find?_cons_of_pos _ hx
  | cons a as ih =>
    rw [List.filter_cons]
    by_cases h : p a = true
    · have hneg : (!(p a)) = false := by simp [h]
      rw [hneg]
      simpa using ih
    · have hpos : (!(p a)) = true := by simp [h]
      rw [hpos]
      simp only [if_true, List.cons_append, reduceIte]
      rw [List.find?_cons_of_neg _ h]
      exact ih

theorem create_session_fst (mgr : Manager) (o : Oracle) (W : World) (user : String) :
    (create_session mgr o W user).1 = "session-" ++ toString W.nextUuid := by
  unfold create_session
  cases h1 : mgr.hasTable <;> cases h2 : o.putItemOk <;> rfl

theorem sid_ne_empty (t : String) : ("session-" ++ t) ≠ "" := by
  intro h
  have h2 : ("session-" ++ t).data = ("" : String).data := congrArg String.data h
  rw [String.data_append] at h2
  have h3 := (List.append_eq_nil.mp h2).1
  exact absurd h3 (by decide)

/-- C4, amended: `create_session` always returns the freshly generated
non-empty identifier — whether the metadata store is available or not and
whether the write succeeds or fails — and when the table is available and the
write succeeds it writes an initial row with message_count = 0, the non-empty
placeholder "New session started" as last_message, an empty last_response and
the current timestamp. (The claim's "empty previews" fails on the
last_message placeholder — see the counterexample.) -/
theorem create_session_contract (mgr : Manager) (o : Oracle) (W : World) (user : String)
    (hT : mgr.hasTable = true) (hP : o.putItemOk = true) :
    (create_session mgr o W user).1 = "session-" ++ toString W.nextUuid ∧
    (∀ (m3 : Manager) (o3 : Oracle) (W3 : World), (create_session m3 o3 W3 user).1 ≠ "") ∧
    getRow (create_session mgr o W user).2 user ("session-" ++ toString W.nextUuid) =
      some ⟨user, "session-" ++ toString W.nextUuid, "New session started", "", W.clock, 0⟩ := by
  refine ⟨create_session_fst mgr o W user, ?_, ?_⟩
  · intro m3 o3 W3
    rw [create_session_fst]
    exact sid_ne_empty _
  · obtain ⟨mi, mt⟩ := mgr
    replace hT : mt = true := hT
    subst hT
    obtain ⟨oc, ol, od, og, op, oq, odel⟩ := o
    replace hP : op = true := hP
    subst hP
    simp only [create_session, if_true, reduceIte]
    unfold getRow putRow
    exact find?_filter_key _ _ _ (by simp [rowKeyMatches])

/-- C4, witness: the contract at concrete inputs. -/
theorem create_session_contract_witness :
    mgrFull.hasTable = true ∧
    ((create_session mgrFull oracleOk emptyWorld "u").1 =
        "session-" ++ toString emptyWorld.nextUuid ∧
    (∀ (m3 : Manager) (o3 : Oracle) (W3 : World), (create_session m3 o3 W3 "u").1 ≠ "") ∧
    getRow (create_session mgrFull oracleOk emptyWorld "u").2 "u"
        ("session-" ++ toString emptyWorld.nextUuid) =
      some ⟨"u", "session-" ++ toString emptyWorld.nextUuid, "New session started", "",
        emptyWorld.clock, 0⟩) :=
  ⟨by decide, create_session_contract mgrFull oracleOk emptyWorld "u" (by decide) (by decide)⟩

/-- C4, counterexample to "empty previews": the initial metadata row written
by `create_session` stores the non-empty placeholder "New session started" as
its last_message preview. -/
theorem create_session_claim_refuted :
    getRow (create_session mgrFull oracleOk emptyWorld "u").2 "u" "session-0" =
      some ⟨"u", "session-0", "New session started", "", 0, 0⟩ ∧
    ("New session started" : String) ≠ "" := by decide

/-- C6: each user message contributes at most one category through the fixed
if/elif order — a message containing "warranty" is filed only under
common_issues (its preferred_topics untouched, even if it also mentions
"mars") — while two separate messages "check my warranty status" and
"mars weather" yield common_issues containing "warranty" and preferred_topics
containing "space_data"; both result lists are duplicate-free. -/
theorem user_preferences_contract (p : Preferences) (c : String)
    (hw : containsStr c "warranty" = true) :
    classifyStep p c = { p with common_issues := p.common_issues ++ ["warranty"] } ∧
    (∀ (q : Preferences) (s : String),
      (classifyStep q s).common_issues.length + (classifyStep q s).preferred_topics.length ≤
        q.common_issues.length + q.preferred_topics.length + 1) ∧
    (get_user_preferences mgrFull oracleOk prefWorld "u").common_issues.contains "warranty" =
      true ∧
    (get_user_preferences mgrFull oracleOk prefWorld "u").preferred_topics.contains
      "space_data" = true ∧
    (get_user_preferences mgrFull oracleOk prefWorld "u").common_issues.Nodup ∧
    (get_user_preferences mgrFull oracleOk prefWorld "u").preferred_topics.Nodup := by
  refine ⟨?_, ?_, by decide, by decide, by decide, by decide⟩
  · unfold classifyStep
    rw [if_pos hw]
  · intro q s
    unfold classifyStep
    split
    · simp only [List.length_append, List.length_cons, List.length_nil]
      omega
    · split
      · simp only [List.length_append, List.length_cons, List.length_nil]
        omega
      · split
        · simp only [List.length_append, List.length_cons, List.length_nil]
          omega
        · omega

/-- C6, witness: the first-match rule applied at a concrete message. -/
theorem user_preferences_contract_witness :
    classifyStep basePreferences "my warranty covers mars rovers" =
      { basePreferences with
          common_issues := basePreferences.common_issues ++ ["warranty"] } :=
  (user_preferences_contract basePreferences "my warranty covers mars rovers" (by decide)).1

/-- C7: generate_follow_up_questions returns the first three entries of the
history-based canned suggestions followed by the query-based canned
suggestions — no randomization, no deduplication — hence never more than 3
entries, even when the two candidate lists together exceed 3 (as in the
concrete scenario, where they total 4). -/
theorem follow_up_cap (mgr : Manager) (o : Oracle) (W : World) (user q : String) :
    generate_follow_up_questions mgr o W user q =
      (historyFollowUps (get_user_preferences mgr o W user) ++ queryFollowUps q).take 3 ∧
    (generate_follow_up_questions mgr o W user q).length ≤ 3 ∧
    (generate_follow_up_questions mgrFull oracleOk followWorld "u" "warranty").length = 3 ∧
    (historyFollowUps (get_user_preferences mgrFull oracleOk followWorld "u") ++
      queryFollowUps "warranty").length = 4 := by
  refine ⟨rfl, ?_, by decide, by decide⟩
  exact List.length_take_le 3 _

/-- C8, amended: no public operation raises (every operation is a total
function of manager, oracle and world). In the degraded not-initialized,
no-table state: store_message is a no-op, get_session_messages and
get_user_sessions are empty, get_conversation_context is the empty string,
get_user_preferences is the default snapshot, delete_session reports false
and changes nothing, create_session writes no row yet still returns a fresh
non-empty identifier — but generate_follow_up_questions still returns its
query-derived canned suggestions (see the counterexample, which refutes
"every read operation returns an empty result"). On per-call failures every
operation returns its defined fallback: empty sequence, false, unchanged
events, or the generated identifier. -/
theorem no_raise_fallback_contract (o o2 : Oracle) (W W2 : World) (m2 : Manager)
    (u s m r q : String) (nmax limit : Nat)
    (hL : o2.listEventsOk = false) (hQ : o2.queryOk = false) (hC : o2.createEventOk = false) :
    store_message mgrDegraded o W u s m r = W ∧
    get_session_messages mgrDegraded o W u s = [] ∧
    get_conversation_context mgrDegraded o W u s q nmax = "" ∧
    get_user_sessions mgrDegraded o W u limit = [] ∧
    get_user_preferences mgrDegraded o W u = basePreferences ∧
    delete_session mgrDegraded o W u s = (false, W) ∧
    generate_follow_up_questions mgrDegraded o W u q = (queryFollowUps q).take 3 ∧
    (create_session mgrDegraded o W u).1 ≠ "" ∧
    (create_session mgrDegraded o W u).2.rows = W.rows ∧
    get_session_messages m2 o2 W2 u s = [] ∧
    delete_session m2 o2 W2 u s = (false, W2) ∧
    get_user_sessions m2 o2 W2 u limit = [] ∧
    (store_message m2 o2 W2 u s m r).events = W2.events ∧
    (create_session m2 o2 W2 u).1 = "session-" ++ toString W2.nextUuid := by
  obtain ⟨oc2, ol2, od2, og2, op2, oq2, odel2⟩ := o2
  replace hL : ol2 = false := hL
  replace hQ : oq2 = false := hQ
  replace hC : oc2 = false := hC
  subst hL
  subst hQ
  subst hC
  obtain ⟨mi2, mt2⟩ := m2
  refine ⟨rfl, rfl, ?_, rfl, ?_, rfl, ?_, ?_, rfl, ?_, ?_, ?_, ?_, create_session_fst _ _ _ _⟩
  · rfl
  · rfl
  · rfl
  · rw [create_session_fst]
    exact sid_ne_empty _
  · cases mi2 <;> rfl
  · cases mi2 <;> rfl
  · cases mt2 <;> rfl
  · cases mi2 <;> rfl

/-- C8, witness: fallbacks at concrete inputs with every store call failing. -/
theorem no_raise_fallback_contract_witness :
    get_session_messages mgrFull oracleDown emptyWorld "u" "s" = [] ∧
    delete_session mgrFull oracleDown emptyWorld "u" "s" = (false, emptyWorld) := by
  have H := no_raise_fallback_contract oracleOk oracleDown emptyWorld emptyWorld mgrFull
    "u" "s" "m" "r" "q" 10 10 (by decide) (by decide) (by decide)
  exact ⟨H.2.2.2.2.2.2.2.2.2.1, H.2.2.2.2.2.2.2.2.2.2.1⟩

/-- C8, counterexample to "every read operation returns an empty result" in
the degraded state: `generate_follow_up_questions` on a not-initialized
manager with both stores down still returns the query-derived canned
suggestions. -/
theorem degraded_read_claim_refuted :
    generate_follow_up_questions mgrDegraded oracleDown emptyWorld "u" "warranty" =
      ["Would you like me to explain the warranty coverage details?",
       "Do you need help with a warranty claim process?"] ∧
    generate_follow_up_questions mgrDegraded oracleDown emptyWorld "u" "warranty" ≠ [] := by
  decide

theorem charListLt_asymm : ∀ (a b : List Char),
    charListLt a b = true → charListLt b a = false := by
  intro a
  induction a with
  | nil =>
    intro b h
    cases b with
    | nil => exact absurd h (by simp [charListLt])
    | cons c cs => rfl
  | cons c cs ih =>
    intro b h
    cases b with
    | nil => exact absurd h (by simp [charListLt])
    | cons d ds =>
      rw [charListLt] at h
      rw [charListLt]
      simp only [Bool.or_eq_true, Bool.and_eq_true] at h
      rcases h with h1 | ⟨hcd, hrec⟩
      · have hcd : c < d := of_decide_eq_true h1
        have hnd : decide (d < c) = false := decide_eq_false (lt_asymm hcd)
        have hne : (d == c) = false :=
          beq_eq_false_iff_ne.mpr (fun hh => absurd hcd (by rw [hh]; exact lt_irrefl c))
        simp [hnd, hne]
      · have hc : c = d := beq_iff_eq.mp hcd
        subst hc
        have hnd : decide (c < c) = false := decide_eq_false (lt_irrefl c)
        have hr := ih ds hrec
        simp [hnd, hr]

theorem head?_insertRowDesc (r : SessionRow) : ∀ (l : List SessionRow),
    (insertRowDesc r l).head? = some r ∨ (insertRowDesc r l).head? = l.head? := by
  intro l
  cases l with
  | nil => exact Or.inl rfl
  | cons x xs =>
    rw [insertRowDesc]
    by_cases hb : sessBefore r x = true
    · rw [if_pos hb]
      exact Or.inr rfl
    · rw [if_neg hb]
      exact Or.inl rfl

theorem chain_insertRowDesc (r : SessionRow) : ∀ (l : List SessionRow),
    List.Chain' (fun a b => sessBefore a b = false) l →
    List.Chain' (fun a b => sessBefore a b = false) (insertRowDesc r l) := by
  intro l
  induction l with
  | nil => intro _; exact List.chain'_singleton r
  | cons x xs ih =>
    intro hc
    have hx := List.chain'_cons'.mp hc
    rw [insertRowDesc]
    by_cases hb : sessBefore r x = true
    · rw [if_pos hb]
      apply List.chain'_cons'.mpr
      refine ⟨?_, ih hx.2⟩
      intro y hy
      rcases head?_insertRowDesc r xs with hh | hh
      · rw [hh] at hy
        simp only [Option.mem_def, Option.some.injEq] at hy
        subst hy
        exact charListLt_asymm _ _ hb
      · rw [hh] at hy
        exact hx.1 y hy
    · rw [if_neg hb]
      apply List.chain'_cons'.mpr
      refine ⟨?_, hc⟩
      intro y hy
      simp only [List.head?_cons, Option.mem_def, Option.some.injEq] at hy
      subst hy
      exact Bool.eq_false_iff.mpr hb

theorem chain_sortRowsDesc_aux : ∀ (l acc : List SessionRow),
    List.Chain' (fun a b => sessBefore a b = false) acc →
    List.Chain' (fun a b => sessBefore a b = false)
      (l.foldl (fun a r => insertRowDesc r a) acc) := by
  intro l
  induction l with
  | nil => intro acc h; exact h
  | cons r rest ih =>
    intro acc h
    rw [List.foldl_cons]
    exact ih _ (chain_insertRowDesc r acc h)

theorem chain_sortRowsDesc (l : List SessionRow) :
    List.Chain' (fun a b => sessBefore a b = false) (sortRowsDesc l) :=
  chain_sortRowsDesc_aux l [] List.chain'_nil

/-- C9, amended: `get_user_sessions` returns the user's rows in descending
sort-key (session_id) order — what `ScanIndexForward=False` provides, which
coincides with newest-first only when session identifiers ascend
chronologically, and the uuid-based identifiers do not (see the
counterexample) — capped at `limit`, and returns the empty sequence rather
than raising when the table is unavailable or the query fails. -/
theorem user_sessions_contract (mgr : Manager) (o : Oracle) (W : World)
    (u : String) (limit : Nat) (hT : mgr.hasTable = true) (hQ : o.queryOk = true) :
    get_user_sessions mgr o W u limit =
      (sortRowsDesc (W.rows.filter (fun r => r.user_id == u))).take limit ∧
    (get_user_sessions mgr o W u limit).length ≤ limit ∧
    List.Chain' (fun a b => sessBefore a b = false) (get_user_sessions mgr o W u limit) ∧
    (∀ (m3 : Manager) (o3 : Oracle), m3.hasTable = false ∨ o3.queryOk = false →
      get_user_sessions m3 o3 W u limit = []) := by
  have hred : get_user_sessions mgr o W u limit =
      (sortRowsDesc (W.rows.filter (fun r => r.user_id == u))).take limit := by
    unfold get_user_sessions
    rw [hT, hQ]
    rfl
  refine ⟨hred, ?_, ?_, ?_⟩
  · rw [hred]
    exact List.length_take_le _ _
  · rw [hred]
    exact (chain_sortRowsDesc _).take _
  · intro m3 o3 h3
    rcases h3 with h3 | h3
    · unfold get_user_sessions
      rw [h3]
      rfl
    · unfold get_user_sessions
      cases hmt : m3.hasTable with
      | false => rfl
      | true =>
        rw [h3]
        rfl

/-- C9, witness: the cap at a concrete table. -/
theorem user_sessions_contract_witness :
    mgrFull.hasTable = true ∧
    (get_user_sessions mgrFull oracleOk twoRowsWorld "u" 1).length ≤ 1 :=
  ⟨by decide,
   (user_sessions_contract mgrFull oracleOk twoRowsWorld "u" 1 (by decide) (by decide)).2.1⟩

/-- C9, counterexample to "ordered newest first": the rows were inserted and
updated in the order olderRow ("session-b", last_updated 0) then newerRow
("session-a", last_updated 5), yet the query returns olderRow first, because
`ScanIndexForward=False` orders by descending session_id, not by recency. -/
theorem user_sessions_order_refuted :
    get_user_sessions mgrFull oracleOk twoRowsWorld "u" 10 = [olderRow, newerRow] ∧
    olderRow.last_updated < newerRow.last_updated ∧
    twoRowsWorld.rows = [olderRow, newerRow] := by decide
